import Mathlib

/-!
Verification development for the real-time speech-to-text pipeline in
`src/main.py` (class `STT`).

The shallow embedding below translates the coordination layer of the code:

* The work queue `self.data_queue` holds either an `io.BytesIO` buffer
  of WAV bytes (enqueued by `recorder_callback`) or the string `"STOP"`
  (enqueued by `stop`).  We model an item as `QItem`: an audio buffer is
  `QItem.audioBuf wav` (the wrapped byte list) and a queued string is
  `QItem.strItem s`.  The Python test `audio_data == 'STOP'` is `false`
  for every `BytesIO` object (comparing a `BytesIO` with a `str` in
  Python yields `False`) and is `true` for a string exactly when it is
  the string `"STOP"`; `isStopSentinel` models that test.

* The external engine `self.model.transcribe(...)` is a parameter
  `f : EngineConfig → QItem → List Entry`; the code calls it with
  `beam_size=5, language=self.language, vad_filter=True` and consumes
  the returned segments, stripping each segment's text.  Timestamps
  (`segment.start` / `segment.end`, Python floats) are only ever logged,
  never computed with, so they are carried as opaque integers.

* The shared state guarded by `self.lock` is `transcription` (a Python
  list initialised to `['']`) and `last_transcription` (initialised to
  `""`).  Each mutex-protected block of the source is one atomic step of
  the model.  The field `calls` is instrumentation recording every
  invocation of the engine (its configuration and the queue item passed),
  in order; it does not exist in the source.

* The worker loop `STT.transcribe` re-reads `self.is_listening` at the
  top of every iteration; another thread (`stop`) may change it at any
  time.  The model takes `flag : Nat → Bool`, the value the worker
  observes at its i-th loop-condition check, which covers every
  interleaving of that benign race.  `data_queue.get()` blocks when the
  queue is empty; a run that reaches an empty queue with the flag still
  true is modelled as `none` (still blocked, loop not exited).
  `task_done()` and `time.sleep(0.25)` change no modelled state.
-/

/-- A device entry as returned by `pyaudio.get_device_info_by_index`:
only the fields the code reads. -/
structure DeviceInfo where
  name : String
  maxInputChannels : Nat
deriving Repr, DecidableEq

/-- The ambient audio host: `defaultInput = some idx` models
`get_default_input_device_info()` succeeding with that index, `none`
models it raising `IOError`/`OSError`; `devices` is the device table
indexed by `get_device_info_by_index`. -/
structure AudioEnv where
  defaultInput : Option Nat
  devices : List DeviceInfo
deriving Repr, DecidableEq

/-- One item of `self.data_queue`: an `io.BytesIO` audio buffer
(carried as its WAV byte list) or a queued string. -/
inductive QItem where
  | audioBuf (wav : List Nat)
  | strItem (s : String)
deriving Repr, DecidableEq

/-- The worker's sentinel test `audio_data == 'STOP'` (src/main.py line 50):
a `BytesIO` is never `==` to a `str` in Python; a queued string passes
exactly when it is `"STOP"`. -/
def isStopSentinel : QItem → Bool
  | QItem.audioBuf _ => false
  | QItem.strItem s => s == "STOP"

/-- `STT.recorder_callback` (src/main.py lines 64-67): wraps the WAV bytes
of the captured audio in `io.BytesIO` and enqueues that buffer. -/
def recorder_callback (wav_data : List Nat) : QItem :=
  QItem.audioBuf wav_data

/-- The keyword arguments the code passes to `self.model.transcribe`
(src/main.py line 53). -/
structure EngineConfig where
  beam_size : Nat
  language : String
  vad_filter : Bool
deriving Repr, DecidableEq

/-- One segment returned by the engine: `start` and `end` are Python
floats used only for logging, carried opaquely; `text` is the raw
segment text (before `.strip()`). -/
structure Entry where
  startT : Int
  endT : Int
  text : String
deriving Repr, DecidableEq

/-- The shared mutable state of the `STT` object that the worker and the
readers touch, plus the `calls` instrumentation trace of engine
invocations (not in the source). -/
structure TState where
  transcription : List String
  last_transcription : String
  language : String
  calls : List (EngineConfig × QItem)
deriving Repr, DecidableEq

/-- The state `STT.__init__` establishes before the worker starts
(src/main.py lines 21-22): `self.transcription = ['']`,
`self.last_transcription = ""`. -/
def initTState (lang : String) : TState :=
  { transcription := [""], last_transcription := "", language := lang, calls := [] }

/-- The body of the `with self.lock:` block in `STT.transcribe`
(src/main.py lines 55-59) for one engine segment: strip the text,
append it to `transcription` and overwrite `last_transcription`,
as a single atomic step (both writes under the one mutex). -/
def publishEntry (seg : Entry) (st : TState) : TState :=
  let text := seg.text.trim
  { st with
      transcription := st.transcription ++ [text]
      last_transcription := text }

/-- Processing of one non-sentinel queue item by `STT.transcribe`
(src/main.py lines 53-59): invoke the engine with
`beam_size=5, language=self.language, vad_filter=True` (recorded in
`calls`), then publish each returned segment in order. -/
def processSegment (f : EngineConfig → QItem → List Entry) (audio_data : QItem)
    (st : TState) : TState :=
  let cfg : EngineConfig := { beam_size := 5, language := st.language, vad_filter := true }
  let segs := f cfg audio_data
  let st1 : TState := { st with calls := st.calls ++ [(cfg, audio_data)] }
  segs.foldl (fun s seg => publishEntry seg s) st1

/-- `STT.get_last_transcription` (src/main.py lines 83-88): under the
mutex, read `last_transcription`, reset it to `""`, return the value
read. -/
def get_last_transcription (st : TState) : String × TState :=
  (st.last_transcription, { st with last_transcription := "" })

/-- Why the worker loop stopped: `sentinel` is the `break` on reading
`'STOP'` (line 51), `flagFalse` is the `while self.is_listening` test
failing at the top of the loop (line 47). -/
inductive ExitReason where
  | sentinel
  | flagFalse
deriving Repr, DecidableEq

/-- Outcome of a terminating worker run: the final shared state, the
queue items the worker dequeued (in order), the items still in the
queue, and why the loop exited. -/
structure RunResult where
  state : TState
  consumed : List QItem
  rest : List QItem
  reason : ExitReason
deriving Repr, DecidableEq

/-- The worker loop `STT.transcribe` (src/main.py lines 45-62), run to
completion against an explicit queue content `q`. `flag i` is the value
of `self.is_listening` the worker observes at its i-th check of the
loop condition (the field is written concurrently by `stop`).  Dequeue
order is queue (FIFO) order; `none` means the loop has not exited (the
worker is blocked in `data_queue.get()` on an empty queue). -/
def transcribe (f : EngineConfig → QItem → List Entry) (flag : Nat → Bool) :
    Nat → List QItem → TState → Option RunResult
  | i, q, st =>
    if flag i then
      match q with
      | [] => none
      | it :: rest =>
        if isStopSentinel it then
          some { state := st, consumed := [it], rest := rest, reason := ExitReason.sentinel }
        else
          match transcribe f flag (i + 1) rest (processSegment f it st) with
          | none => none
          | some r =>
            some { r with consumed := it :: r.consumed }
    else
      some { state := st, consumed := [], rest := q, reason := ExitReason.flagFalse }

/-- The controller-visible state `stop` manipulates: the listening flag
and the queue contents. -/
structure CtrlState where
  is_listening : Bool
  queue : List QItem
deriving Repr, DecidableEq

/-- `STT.stop` (src/main.py lines 76-81): log, set `is_listening` to
`False`, enqueue the string `"STOP"` (logging changes no modelled
state). -/
def stop (c : CtrlState) : CtrlState :=
  { is_listening := false, queue := c.queue ++ [QItem.strItem "STOP"] }

/-- `k` successive calls of `stop`. -/
def stopIter : Nat → CtrlState → CtrlState
  | 0, c => c
  | k + 1, c => stopIter k (stop c)

/-- Number of items of a queue that pass the sentinel test. -/
def countStop (q : List QItem) : Nat :=
  q.countP (fun it => isStopSentinel it)

/-- The non-sentinel items of a dequeued prefix: exactly the items the
worker handed to the engine. -/
def processedOf (items : List QItem) : List QItem :=
  items.filter (fun it => !isStopSentinel it)

/-- The fallback enumeration in `STT.setup_mic` (src/main.py lines
100-105): scan device indices upward and keep the first index whose
device has `maxInputChannels > 0` (`default_device_index` is only set
while it is still `None`, so the first hit wins). -/
def findInputDevice : List DeviceInfo → Nat → Option Nat
  | [], _ => none
  | d :: ds, i =>
    if d.maxInputChannels > 0 then some i else findInputDevice ds (i + 1)

/-- The log lines the fallback loop emits: one line per input-capable
device (src/main.py line 103). -/
def deviceLogs : List DeviceInfo → Nat → List String
  | [], _ => []
  | d :: ds, i =>
    if d.maxInputChannels > 0 then
      ("Device index: " ++ toString i ++ ", Device name: " ++ d.name) :: deviceLogs ds (i + 1)
    else
      deviceLogs ds (i + 1)

/-- Result of `setup_mic`: the log lines emitted and either the chosen
device index or the raised exception's message. -/
structure MicResult where
  logs : List String
  result : Except String Nat
deriving Repr

/-- `STT.setup_mic` (src/main.py lines 90-110): try the default input
device; on `IOError`/`OSError` log an error and fall back to the first
input-capable device of the enumeration; if none exists, raise
`Exception("No input devices found.")`. -/
def setup_mic (env : AudioEnv) : MicResult :=
  match env.defaultInput with
  | some idx => { logs := [], result := Except.ok idx }
  | none =>
    let logs :=
      "Default input device not found. Printing all input devices:" :: deviceLogs env.devices 0
    match findInputDevice env.devices 0 with
    | some i => { logs := logs, result := Except.ok i }
    | none => { logs := logs, result := Except.error "No input devices found." }

/-- Milestones of `STT.__init__` in program order: `setup_mic`
returning (line 29), the `WhisperModel` constructor returning (line 31),
and `self.thread.start()` (line 40). -/
inductive InitEvent where
  | micSetup
  | engineInit
  | threadStart
deriving Repr, DecidableEq

/-- The object `STT.__init__` leaves behind on success: the shared
worker state, the listening flag with the (still empty) queue, and the
chosen device index. -/
structure STTBoot where
  state : TState
  ctrl : CtrlState
  default_mic : Nat
deriving Repr

/-- Outcome of `STT.__init__`: the milestones reached in order, the log
lines of `setup_mic`, and either the constructed object or the
propagated exception message. -/
structure InitOutcome where
  events : List InitEvent
  logs : List String
  result : Except String STTBoot
deriving Repr

/-- `STT.__init__` (src/main.py lines 16-43): set up the plain fields
(`transcription = ['']`, `last_transcription = ""`,
`is_listening = True`, empty queue), then `setup_mic` (may raise), then
construct the `WhisperModel` (external; `engineCtor` is its outcome,
may raise), then start the worker thread.  An exception anywhere
propagates to the caller and skips everything after it. -/
def sttInit (env : AudioEnv) (engineCtor : Except String Unit) (lang : String) :
    InitOutcome :=
  let mic := setup_mic env
  match mic.result with
  | Except.error e => { events := [], logs := mic.logs, result := Except.error e }
  | Except.ok idx =>
    match engineCtor with
    | Except.error e =>
      { events := [InitEvent.micSetup], logs := mic.logs, result := Except.error e }
    | Except.ok _ =>
      { events := [InitEvent.micSetup, InitEvent.engineInit, InitEvent.threadStart]
        logs := mic.logs
        result := Except.ok
          { state := initTState lang
            ctrl := { is_listening := true, queue := [] }
            default_mic := idx } }

/-- The states of the lock-protected shared data reachable through the
program's atomic sections: the initial state of `__init__`, the
per-segment publish block of `transcribe` (lines 57-59), the reader
`get_last_transcription` (lines 85-87), and the instrumentation-only
recording of an engine call. -/
inductive Reachable : TState → Prop where
  | init (lang : String) : Reachable (initTState lang)
  | publish (seg : Entry) {st : TState} :
      Reachable st → Reachable (publishEntry seg st)
  | take {st : TState} :
      Reachable st → Reachable (get_last_transcription st).2
  | record (cfg : EngineConfig) (it : QItem) {st : TState} :
      Reachable st → Reachable { st with calls := st.calls ++ [(cfg, it)] }

/-- The worker state after processing a list of (non-sentinel) queue
items in order. -/
def procFold (f : EngineConfig → QItem → List Entry) (items : List QItem)
    (st : TState) : TState :=
  items.foldl (fun s it => processSegment f it s) st

lemma publish_foldl_transcription (segs : List Entry) (st : TState) :
    (segs.foldl (fun s seg => publishEntry seg s) st).transcription
      = st.transcription ++ segs.map (fun e => e.text.trim) := by
  induction segs generalizing st with
  | nil => simp
  | cons e es ih =>
    rw [List.foldl_cons, ih]
    simp [publishEntry, List.append_assoc]

lemma publish_foldl_language (segs : List Entry) (st : TState) :
    (segs.foldl (fun s seg => publishEntry seg s) st).language = st.language := by
  induction segs generalizing st with
  | nil => simp
  | cons e es ih =>
    rw [List.foldl_cons, ih]
    simp [publishEntry]

lemma publish_foldl_calls (segs : List Entry) (st : TState) :
    (segs.foldl (fun s seg => publishEntry seg s) st).calls = st.calls := by
  induction segs generalizing st with
  | nil => simp
  | cons e es ih =>
    rw [List.foldl_cons, ih]
    simp [publishEntry]

lemma processSegment_transcription (f : EngineConfig → QItem → List Entry)
    (it : QItem) (st : TState) :
    (processSegment f it st).transcription
      = st.transcription
        ++ (f { beam_size := 5, language := st.language, vad_filter := true } it).map
            (fun e => e.text.trim) := by
  simp [processSegment, publish_foldl_transcription]

lemma processSegment_language (f : EngineConfig → QItem → List Entry)
    (it : QItem) (st : TState) :
    (processSegment f it st).language = st.language := by
  simp [processSegment, publish_foldl_language]

lemma processSegment_calls (f : EngineConfig → QItem → List Entry)
    (it : QItem) (st : TState) :
    (processSegment f it st).calls
      = st.calls ++ [({ beam_size := 5, language := st.language, vad_filter := true }, it)] := by
  simp [processSegment, publish_foldl_calls]

lemma procFold_language (f : EngineConfig → QItem → List Entry)
    (items : List QItem) : ∀ st : TState, (procFold f items st).language = st.language := by
  induction items with
  | nil => intro st; simp [procFold]
  | cons it its ih =>
    intro st
    show (procFold f its (processSegment f it st)).language = st.language
    rw [ih, processSegment_language]

lemma procFold_transcription (f : EngineConfig → QItem → List Entry)
    (items : List QItem) : ∀ st : TState,
    (procFold f items st).transcription
      = st.transcription
        ++ items.flatMap (fun it =>
            (f { beam_size := 5, language := st.language, vad_filter := true } it).map
              (fun e => e.text.trim)) := by
  induction items with
  | nil => intro st; simp [procFold]
  | cons it its ih =>
    intro st
    show (procFold f its (processSegment f it st)).transcription = _
    rw [ih, processSegment_transcription, processSegment_language]
    simp [List.append_assoc]

lemma procFold_calls (f : EngineConfig → QItem → List Entry)
    (items : List QItem) : ∀ st : TState,
    (procFold f items st).calls
      = st.calls
        ++ items.map (fun it =>
            ({ beam_size := 5, language := st.language, vad_filter := true }, it)) := by
  induction items with
  | nil => intro st; simp [procFold]
  | cons it its ih =>
    intro st
    show (procFold f its (processSegment f it st)).calls = _
    rw [ih, processSegment_calls, processSegment_language]
    simp [List.append_assoc]

lemma transcribe_flagFalse_eq (f : EngineConfig → QItem → List Entry) (flag : Nat → Bool)
    (i : Nat) (q : List QItem) (st : TState) (hf : flag i = false) :
    transcribe f flag i q st
      = some { state := st, consumed := [], rest := q, reason := ExitReason.flagFalse } := by
  rw [transcribe.eq_def]
  simp [hf]

lemma transcribe_nil_eq (f : EngineConfig → QItem → List Entry) (flag : Nat → Bool)
    (i : Nat) (st : TState) (hf : flag i = true) :
    transcribe f flag i [] st = none := by
  rw [transcribe.eq_def]
  simp [hf]

lemma transcribe_sentinel_eq (f : EngineConfig → QItem → List Entry) (flag : Nat → Bool)
    (i : Nat) (it : QItem) (rest : List QItem) (st : TState)
    (hf : flag i = true) (hs : isStopSentinel it = true) :
    transcribe f flag i (it :: rest) st
      = some { state := st, consumed := [it], rest := rest, reason := ExitReason.sentinel } := by
  rw [transcribe.eq_def]
  simp [hf, hs]

lemma transcribe_cons_eq (f : EngineConfig → QItem → List Entry) (flag : Nat → Bool)
    (i : Nat) (it : QItem) (rest : List QItem) (st : TState)
    (hf : flag i = true) (hs : isStopSentinel it = false) :
    transcribe f flag i (it :: rest) st
      = match transcribe f flag (i + 1) rest (processSegment f it st) with
        | none => none
        | some r => some { r with consumed := it :: r.consumed } := by
  rw [transcribe.eq_def]
  simp [hf, hs]

/-- Everything a terminating worker run guarantees: the consumed items
are a prefix of the queue; the final state is the fold of
`processSegment` over the non-sentinel consumed items; at most one
sentinel is consumed; on a sentinel exit the sentinel is the last item
consumed and the first sentinel encountered; a flag exit consumes no
sentinel and requires some observation of the flag being false. -/
lemma transcribe_spec (f : EngineConfig → QItem → List Entry) (flag : Nat → Bool) :
    ∀ (q : List QItem) (i : Nat) (st : TState) (r : RunResult),
      transcribe f flag i q st = some r →
        q = r.consumed ++ r.rest
        ∧ r.state = procFold f (processedOf r.consumed) st
        ∧ countStop r.consumed ≤ 1
        ∧ (r.reason = ExitReason.sentinel →
            ∃ pre it, r.consumed = pre ++ [it] ∧ isStopSentinel it = true
              ∧ processedOf r.consumed = pre ∧ countStop pre = 0)
        ∧ (r.reason = ExitReason.flagFalse →
            countStop r.consumed = 0 ∧ ∃ j, flag j = false) := by
  intro q
  induction q with
  | nil =>
    intro i st r h
    by_cases hf : flag i = true
    · rw [transcribe_nil_eq f flag i st hf] at h
      exact absurd h (by simp)
    · rw [transcribe_flagFalse_eq f flag i [] st (by simpa using hf)] at h
      injection h with h
      subst h
      refine ⟨by simp, by simp [procFold, processedOf], by simp [countStop], by simp, ?_⟩
      intro _
      exact ⟨by simp [countStop], i, by simpa using hf⟩
  | cons it rest ih =>
    intro i st r h
    by_cases hf : flag i = true
    · by_cases hs : isStopSentinel it = true
      · rw [transcribe_sentinel_eq f flag i it rest st hf hs] at h
        injection h with h
        subst h
        refine ⟨by simp, by simp [procFold, processedOf, hs], by simp [countStop, hs], ?_, by simp⟩
        intro _
        exact ⟨[], it, by simp, hs, by simp [processedOf, hs], by simp [countStop]⟩
      · replace hs : isStopSentinel it = false := by simpa using hs
        rw [transcribe_cons_eq f flag i it rest st hf hs] at h
        cases hr : transcribe f flag (i + 1) rest (processSegment f it st) with
        | none => rw [hr] at h; exact absurd h (by simp)
        | some r' =>
          rw [hr] at h
          injection h with h
          subst h
          obtain ⟨hq, hstate, hcount, hsent, hflag⟩ :=
            ih (i + 1) (processSegment f it st) r' hr
          refine ⟨by rw [hq]; simp, ?_, ?_, ?_, ?_⟩
          · show r'.state = _
            rw [hstate]
            simp [processedOf, hs, procFold]
          · show countStop (it :: r'.consumed) ≤ 1
            simpa [countStop, hs] using hcount
          · intro hr2
            obtain ⟨pre, it2, hc, hstop2, hproc, hpre⟩ := hsent hr2
            refine ⟨it :: pre, it2, by simp [hc], hstop2, ?_, ?_⟩
            · show processedOf (it :: r'.consumed) = it :: pre
              simp [processedOf, hs]
              simpa [processedOf] using hproc
            · simpa [countStop, hs] using hpre
          · intro hr2
            obtain ⟨hc0, j, hj⟩ := hflag hr2
            exact ⟨by simpa [countStop, hs] using hc0, j, hj⟩
    · rw [transcribe_flagFalse_eq f flag i (it :: rest) st (by simpa using hf)] at h
      injection h with h
      subst h
      refine ⟨by simp, by simp [procFold, processedOf], by simp [countStop], by simp, ?_⟩
      intro _
      exact ⟨by simp [countStop], i, by simpa using hf⟩

/-- Full computation of a worker run in which the listening flag stays
true: the queue holds `audios` then the sentinel then `after`. -/
lemma transcribe_allTrue (f : EngineConfig → QItem → List Entry) (audios : List (List Nat)) :
    ∀ (after : List QItem) (st : TState) (i : Nat),
      transcribe f (fun _ => true) i
          (audios.map QItem.audioBuf ++ QItem.strItem "STOP" :: after) st
        = some { state := procFold f (audios.map QItem.audioBuf) st
                 consumed := audios.map QItem.audioBuf ++ [QItem.strItem "STOP"]
                 rest := after
                 reason := ExitReason.sentinel } := by
  induction audios with
  | nil =>
    intro after st i
    simp only [List.map_nil, List.nil_append]
    rw [transcribe_sentinel_eq _ _ i _ after st rfl (by simp [isStopSentinel])]
    simp [procFold]
  | cons a as ih =>
    intro after st i
    simp only [List.map_cons, List.cons_append]
    rw [transcribe_cons_eq _ _ i _ _ st rfl (by simp [isStopSentinel])]
    rw [ih after (processSegment f (QItem.audioBuf a) st) (i + 1)]
    simp [procFold]

lemma stopIter_succ_spec (k : Nat) : ∀ c : CtrlState,
    (stopIter (k + 1) c).is_listening = false
    ∧ countStop (stopIter (k + 1) c).queue = countStop c.queue + (k + 1) := by
  induction k with
  | zero =>
    intro c
    refine ⟨rfl, ?_⟩
    show countStop (stop c).queue = countStop c.queue + 1
    simp [stop, countStop, List.countP_append, isStopSentinel]
  | succ k ih =>
    intro c
    obtain ⟨h1, h2⟩ := ih (stop c)
    refine ⟨h1, ?_⟩
    rw [show stopIter (k + 1 + 1) c = stopIter (k + 1) (stop c) from rfl, h2]
    have : countStop (stop c).queue = countStop c.queue + 1 := by
      simp [stop, countStop, List.countP_append, isStopSentinel]
    omega

lemma findInputDevice_none_iff (ds : List DeviceInfo) : ∀ k : Nat,
    (findInputDevice ds k = none ↔ ∀ d ∈ ds, d.maxInputChannels = 0) := by
  induction ds with
  | nil => intro k; simp [findInputDevice]
  | cons d ds ih =>
    intro k
    by_cases hd : 0 < d.maxInputChannels
    · simp only [findInputDevice, if_pos hd]
      constructor
      · intro h; exact absurd h (by simp)
      · intro h; exact absurd (h d (by simp)) (by omega)
    · have hd0 : d.maxInputChannels = 0 := by omega
      simp only [findInputDevice, if_neg hd]
      rw [ih (k + 1)]
      simp [hd0]

lemma findInputDevice_first (ds : List DeviceInfo) : ∀ (k i : Nat),
    findInputDevice ds k = some i →
      k ≤ i
      ∧ (∃ d, ds.get? (i - k) = some d ∧ 0 < d.maxInputChannels)
      ∧ ∀ j d2, ds.get? j = some d2 → 0 < d2.maxInputChannels → i ≤ k + j := by
  induction ds with
  | nil => intro k i h; simp [findInputDevice] at h
  | cons d ds ih =>
    intro k i h
    by_cases hd : 0 < d.maxInputChannels
    · simp only [findInputDevice, if_pos hd] at h
      injection h with h
      subst h
      refine ⟨le_refl k, ⟨d, by simp, hd⟩, ?_⟩
      intro j d2 _ _
      omega
    · simp only [findInputDevice, if_neg hd] at h
      obtain ⟨h1, h2, h3⟩ := ih (k + 1) i h
      refine ⟨by omega, ?_, ?_⟩
      · obtain ⟨d2, hget, hpos⟩ := h2
        refine ⟨d2, ?_, hpos⟩
        rw [show i - k = (i - (k + 1)) + 1 from by omega]
        simpa using hget
      · intro j d2 hget hpos
        cases j with
        | zero =>
          simp at hget
          subst hget
          exact absurd hpos hd
        | succ j' =>
          have := h3 j' d2 (by simpa using hget) hpos
          omega

/-- C1: for every sequence of N audio segments enqueued (the `BytesIO`
buffers `recorder_callback` produces) followed by the `"STOP"` sentinel
— with the listening flag still true, i.e. `stop()` not yet observed —
the worker dequeues and transcribes exactly those N segments in enqueue
(FIFO) order (the engine-call trace grows by exactly those N items, in
order), then exits its loop on reading the sentinel; the items enqueued
after the sentinel are left in the queue untouched and no engine call
is ever made for them. -/
theorem claim_worker_fifo (f : EngineConfig → QItem → List Entry)
    (audios : List (List Nat)) (after : List QItem) (st : TState) (i : Nat) :
    transcribe f (fun _ => true) i
        ((audios.map recorder_callback) ++ QItem.strItem "STOP" :: after) st
      = some { state := procFold f (audios.map QItem.audioBuf) st
               consumed := audios.map QItem.audioBuf ++ [QItem.strItem "STOP"]
               rest := after
               reason := ExitReason.sentinel }
    ∧ (procFold f (audios.map QItem.audioBuf) st).calls
      = st.calls ++ (audios.map QItem.audioBuf).map (fun it =>
          ({ beam_size := 5, language := st.language, vad_filter := true }, it)) := by
  constructor
  · have hmap : audios.map recorder_callback = audios.map QItem.audioBuf := rfl
    rw [hmap]
    exact transcribe_allTrue f audios after st i
  · exact procFold_calls f (audios.map QItem.audioBuf) st

/-- C2: `get_last_transcription` returns the currently stored
`last_transcription` and resets the slot to `""` (leaving the
transcript untouched); hence two consecutive calls with no intervening
publication return the stored value first and `""` second
(single delivery, clear-on-read). -/
theorem claim_takeLast_single_delivery (st : TState) :
    (get_last_transcription st).1 = st.last_transcription
    ∧ ((get_last_transcription st).2).last_transcription = ""
    ∧ ((get_last_transcription st).2).transcription = st.transcription
    ∧ (get_last_transcription ((get_last_transcription st).2)).1 = "" :=
  ⟨rfl, rfl, rfl, rfl⟩

/-- A concrete engine for counterexamples and witnesses: every segment
yields exactly one entry whose text strips to `"hello"`. -/
def cexEngine : EngineConfig → QItem → List Entry :=
  fun _ _ => [{ startT := 0, endT := 1, text := " hello " }]

/-- A concrete queue: one audio segment, then the sentinel. -/
def cexQueue : List QItem := [QItem.audioBuf [1], QItem.strItem "STOP"]

/-- The result of running the worker on `cexQueue` from the constructor
state with the flag always true: one segment processed (transcript
`["", "hello"]`), then the sentinel consumed. -/
def cexResult : RunResult :=
  { state := procFold cexEngine ([[1]].map QItem.audioBuf) (initTState "en")
    consumed := [[1]].map QItem.audioBuf ++ [QItem.strItem "STOP"]
    rest := []
    reason := ExitReason.sentinel }

lemma cexRun_eq :
    transcribe cexEngine (fun _ => true) 0 cexQueue (initTState "en") = some cexResult :=
  transcribe_allTrue cexEngine [[1]] [] (initTState "en") 0

/-- Total number of entries the engine returns across the non-sentinel
items of a dequeued prefix, at the configuration the worker uses for
language `lang`. -/
def totalEntries (f : EngineConfig → QItem → List Entry) (lang : String)
    (items : List QItem) : Nat :=
  ((processedOf items).map (fun it =>
    (f { beam_size := 5, language := lang, vad_filter := true } it).length)).sum

/-- C3 as stated fails on the code: `self.transcription` is initialised
to `['']`, so after a run that processes one segment producing one
entry the transcript's length is 2 while the total entry count is 1. -/
theorem claim_transcript_length_cex :
    (transcribe cexEngine (fun _ => true) 0 cexQueue (initTState "en")).map
        (fun r => (r.state.transcription.length, totalEntries cexEngine "en" r.consumed))
      = some (2, 1)
    ∧ (2 : Nat) ≠ 1 := by
  refine ⟨?_, by decide⟩
  rfl

/-- C3 (amended): the transcript list is initialised to `['']`, so
after any terminating worker run from the constructor state its length
equals ONE (the initial empty-string placeholder) plus the total count
of entries returned by the engine across the processed segments; it is
monotonically non-decreasing over time: the initial transcript is
preserved as a prefix (this theorem holds for every queue, so also at
every intermediate point of a longer run) and the length never drops
below its initial value. -/
theorem claim_transcript_length_amended (f : EngineConfig → QItem → List Entry)
    (flag : Nat → Bool) (lang : String) (q : List QItem) (i : Nat) (r : RunResult)
    (h : transcribe f flag i q (initTState lang) = some r) :
    r.state.transcription.length = 1 + totalEntries f lang r.consumed
    ∧ r.state.transcription.take (initTState lang).transcription.length
        = (initTState lang).transcription
    ∧ (initTState lang).transcription.length ≤ r.state.transcription.length := by
  obtain ⟨-, hstate, -, -, -⟩ := transcribe_spec f flag q i (initTState lang) r h
  rw [hstate, procFold_transcription]
  refine ⟨?_, ?_, ?_⟩
  · simp [initTState, totalEntries, List.length_flatMap, Function.comp_def,
      List.length_map]
    omega
  · simp [initTState]
  · simp [initTState]

/-- Witness for the amended C3 at a concrete run. -/
theorem claim_transcript_length_amended_witness :
    cexResult.state.transcription.length = 1 + totalEntries cexEngine "en" cexResult.consumed :=
  (claim_transcript_length_amended cexEngine (fun _ => true) "en" cexQueue 0 cexResult
    cexRun_eq).1

/-- C4: the per-entry transcript append and the `last_transcription`
overwrite are one atomic step (`publishEntry` is the body of the single
`with self.lock:` block, performing both writes together), and in every
state reachable through the program's atomic sections
`last_transcription` is either `""` (initial or just consumed) or equal
to the most recently appended transcript element — so a reader, which
takes the same lock, never observes one update without the other. -/
theorem claim_atomic_publish_invariant :
    (∀ (seg : Entry) (st : TState),
        (publishEntry seg st).transcription = st.transcription ++ [seg.text.trim]
        ∧ (publishEntry seg st).last_transcription = seg.text.trim)
    ∧ (∀ st : TState, Reachable st →
        st.last_transcription = "" ∨
          st.transcription.getLast? = some st.last_transcription) := by
  constructor
  · intro seg st
    exact ⟨rfl, rfl⟩
  · intro st h
    induction h with
    | init lang => left; rfl
    | publish seg _ _ => right; simp [publishEntry]
    | take _ _ => left; rfl
    | record cfg it _ ih => simpa using ih

/-- Witness for C4 at the constructor state. -/
theorem claim_atomic_publish_invariant_witness :
    (initTState "en").last_transcription = "" ∨
      (initTState "en").transcription.getLast? = some (initTState "en").last_transcription :=
  claim_atomic_publish_invariant.2 (initTState "en") (Reachable.init "en")

/-- C5 as stated fails on the code: the loop condition is
`while self.is_listening`, so when the worker observes the flag false at
the top of an iteration (as after `stop()` has set it) it leaves the
loop without reading any sentinel and without any engine error — here a
concrete run exits with reason `flagFalse`, consuming nothing, while
the sentinel is still in the queue. -/
theorem claim_loop_exit_cex :
    transcribe cexEngine (fun _ => false) 0 cexQueue (initTState "en")
      = some { state := initTState "en", consumed := [], rest := cexQueue,
               reason := ExitReason.flagFalse }
    ∧ ExitReason.flagFalse ≠ ExitReason.sentinel :=
  ⟨transcribe_flagFalse_eq cexEngine (fun _ => false) 0 cexQueue (initTState "en") rfl,
   by decide⟩

/-- C5 (amended): the worker loop has exactly two exit paths — reading
the sentinel, or the `while self.is_listening` condition being false at
the top of an iteration; a flag exit requires the flag to actually be
observed false, so whenever the listening flag stays true the sentinel
is the only exit.  (Engine errors are outside the model: the engine is
a total function here, and engine construction errors are settled at
`sttInit` time, before the worker starts.) -/
theorem claim_loop_exit_amended (f : EngineConfig → QItem → List Entry)
    (flag : Nat → Bool) (i : Nat) (q : List QItem) (st : TState) (r : RunResult)
    (h : transcribe f flag i q st = some r) :
    (r.reason = ExitReason.sentinel ∨ r.reason = ExitReason.flagFalse)
    ∧ (r.reason = ExitReason.flagFalse → ∃ j, flag j = false)
    ∧ ((∀ j, flag j = true) → r.reason = ExitReason.sentinel) := by
  obtain ⟨-, -, -, -, hflag⟩ := transcribe_spec f flag q i st r h
  refine ⟨?_, fun hr => (hflag hr).2, ?_⟩
  · cases r.reason
    · exact Or.inl rfl
    · exact Or.inr rfl
  · intro hall
    cases hre : r.reason with
    | sentinel => rfl
    | flagFalse =>
      obtain ⟨-, j, hj⟩ := hflag hre
      rw [hall j] at hj
      exact absurd hj (by simp)

/-- Witness for the amended C5 at a concrete run. -/
theorem claim_loop_exit_amended_witness :
    cexResult.reason = ExitReason.sentinel ∨ cexResult.reason = ExitReason.flagFalse :=
  (claim_loop_exit_amended cexEngine (fun _ => true) 0 cexQueue (initTState "en")
    cexResult cexRun_eq).1

/-- C6: each `stop()` call sets the listening flag to false and appends
exactly one `"STOP"` sentinel, so after any k ≥ 1 calls the queue holds
its former sentinel count plus k — in particular at least one sentinel;
and a worker run is a single termination that never consumes a second
sentinel: at most one dequeued item passes the sentinel test, and when
the loop exits on the sentinel branch that sentinel is the last item
dequeued and the first sentinel the worker read (none earlier). -/
theorem claim_stop_idempotent :
    (∀ (c : CtrlState) (k : Nat), 1 ≤ k →
        (stopIter k c).is_listening = false
        ∧ countStop (stopIter k c).queue = countStop c.queue + k
        ∧ 1 ≤ countStop (stopIter k c).queue)
    ∧ (∀ (f : EngineConfig → QItem → List Entry) (flag : Nat → Bool)
        (i : Nat) (q : List QItem) (st : TState) (r : RunResult),
        transcribe f flag i q st = some r →
          countStop r.consumed ≤ 1
          ∧ (r.reason = ExitReason.sentinel →
              ∃ pre it, r.consumed = pre ++ [it] ∧ isStopSentinel it = true
                ∧ countStop pre = 0)) := by
  constructor
  · intro c k hk
    cases k with
    | zero => omega
    | succ k =>
      obtain ⟨h1, h2⟩ := stopIter_succ_spec k c
      exact ⟨h1, h2, by omega⟩
  · intro f flag i q st r h
    obtain ⟨-, -, hcount, hsent, -⟩ := transcribe_spec f flag q i st r h
    refine ⟨hcount, fun hr => ?_⟩
    obtain ⟨pre, it, h1, h2, -, h4⟩ := hsent hr
    exact ⟨pre, it, h1, h2, h4⟩

/-- Witness for C6: a single `stop()` on the freshly constructed
controller state. -/
theorem claim_stop_idempotent_witness :
    (stopIter 1 { is_listening := true, queue := [] }).is_listening = false
    ∧ countStop (stopIter 1 { is_listening := true, queue := [] }).queue
        = countStop ({ is_listening := true, queue := [] } : CtrlState).queue + 1
    ∧ 1 ≤ countStop (stopIter 1 { is_listening := true, queue := [] }).queue :=
  claim_stop_idempotent.1 { is_listening := true, queue := [] } 1 (by decide)

lemma getLastD_append (l1 l2 : List String) (d : String) :
    (l1 ++ l2).getLastD d = l2.getLastD (l1.getLastD d) := by
  induction l1 generalizing d with
  | nil => rfl
  | cons a l ih =>
    rw [List.cons_append, List.getLastD_cons, ih, List.getLastD_cons]

lemma publish_foldl_last (segs : List Entry) (st : TState) :
    (segs.foldl (fun s seg => publishEntry seg s) st).last_transcription
      = (segs.map (fun e => e.text.trim)).getLastD st.last_transcription := by
  induction segs generalizing st with
  | nil => rfl
  | cons e es ih =>
    rw [List.foldl_cons, ih]
    simp only [List.map_cons, List.getLastD_cons]
    rfl

lemma processSegment_last (f : EngineConfig → QItem → List Entry)
    (it : QItem) (st : TState) :
    (processSegment f it st).last_transcription
      = ((f { beam_size := 5, language := st.language, vad_filter := true } it).map
          (fun e => e.text.trim)).getLastD st.last_transcription := by
  simp [processSegment, publish_foldl_last]

lemma procFold_last (f : EngineConfig → QItem → List Entry)
    (items : List QItem) : ∀ st : TState,
    (procFold f items st).last_transcription
      = (items.flatMap (fun it =>
          (f { beam_size := 5, language := st.language, vad_filter := true } it).map
            (fun e => e.text.trim))).getLastD st.last_transcription := by
  induction items with
  | nil => intro st; rfl
  | cons it its ih =>
    intro st
    show (procFold f its (processSegment f it st)).last_transcription = _
    rw [ih, processSegment_last, processSegment_language]
    simp only [List.flatMap_cons, getLastD_append]

/-- C7: every engine invocation a worker run performs uses exactly
`beam_size = 5`, the state's configured language, and
`vad_filter = true` (the call trace grows by precisely the processed
items, each paired with that configuration); every returned entry's
text is trimmed of surrounding whitespace before being appended to the
transcript (second conjunct) and published as the last result: the
final `last_transcription` is the last of those trimmed texts (or the
previous value if no entry was produced), and per entry the single
atomic step `publishEntry` both appends the trimmed text and overwrites
`last_transcription` with that same trimmed text. -/
theorem claim_engine_config_trim (f : EngineConfig → QItem → List Entry)
    (flag : Nat → Bool) (i : Nat) (q : List QItem) (st : TState) (r : RunResult)
    (h : transcribe f flag i q st = some r) :
    r.state.calls = st.calls ++ (processedOf r.consumed).map (fun it =>
        ({ beam_size := 5, language := st.language, vad_filter := true }, it))
    ∧ r.state.transcription = st.transcription
        ++ (processedOf r.consumed).flatMap (fun it =>
            (f { beam_size := 5, language := st.language, vad_filter := true } it).map
              (fun e => e.text.trim))
    ∧ r.state.last_transcription
        = ((processedOf r.consumed).flatMap (fun it =>
            (f { beam_size := 5, language := st.language, vad_filter := true } it).map
              (fun e => e.text.trim))).getLastD st.last_transcription
    ∧ (∀ (seg : Entry) (s : TState),
        (publishEntry seg s).transcription = s.transcription ++ [seg.text.trim]
        ∧ (publishEntry seg s).last_transcription = seg.text.trim) := by
  obtain ⟨-, hstate, -, -, -⟩ := transcribe_spec f flag q i st r h
  rw [hstate]
  exact ⟨procFold_calls f _ st, procFold_transcription f _ st, procFold_last f _ st,
    fun seg s => ⟨rfl, rfl⟩⟩

/-- Witness for C7 at a concrete run: the recorded call and the
published last result. -/
theorem claim_engine_config_trim_witness :
    cexResult.state.calls = (initTState "en").calls
      ++ (processedOf cexResult.consumed).map (fun it =>
          ({ beam_size := 5, language := "en", vad_filter := true }, it))
    ∧ cexResult.state.last_transcription
        = ((processedOf cexResult.consumed).flatMap (fun it =>
            (cexEngine { beam_size := 5, language := "en", vad_filter := true } it).map
              (fun e => e.text.trim))).getLastD (initTState "en").last_transcription :=
  ⟨(claim_engine_config_trim cexEngine (fun _ => true) 0 cexQueue (initTState "en")
      cexResult cexRun_eq).1,
   (claim_engine_config_trim cexEngine (fun _ => true) 0 cexQueue (initTState "en")
      cexResult cexRun_eq).2.2.1⟩

lemma sttInit_micError (env : AudioEnv) (ec : Except String Unit) (lang : String)
    (e : String) (h : (setup_mic env).result = Except.error e) :
    sttInit env ec lang
      = { events := [], logs := (setup_mic env).logs, result := Except.error e } := by
  simp [sttInit, h]

lemma sttInit_engineError (env : AudioEnv) (lang : String) (idx : Nat) (e : String)
    (h : (setup_mic env).result = Except.ok idx) :
    sttInit env (Except.error e) lang
      = { events := [InitEvent.micSetup], logs := (setup_mic env).logs,
          result := Except.error e } := by
  simp [sttInit, h]

lemma sttInit_ok (env : AudioEnv) (lang : String) (idx : Nat) (u : Unit)
    (h : (setup_mic env).result = Except.ok idx) :
    sttInit env (Except.ok u) lang
      = { events := [InitEvent.micSetup, InitEvent.engineInit, InitEvent.threadStart]
          logs := (setup_mic env).logs
          result := Except.ok
            { state := initTState lang
              ctrl := { is_listening := true, queue := [] }
              default_mic := idx } } := by
  simp [sttInit, h]

/-- C8: when the default input device is unavailable, `setup_mic` falls
back to enumerating the devices and selects the first input-capable one
(`maxInputChannels > 0`), having logged the fallback; when no
input-capable device exists, construction fails with the
`"No input devices found."` error, no milestone is reached, and in
particular the worker thread is never started. -/
theorem claim_mic_fallback (env : AudioEnv) (lang : String)
    (ec : Except String Unit) (hdef : env.defaultInput = none) :
    (∀ i, findInputDevice env.devices 0 = some i →
        (setup_mic env).result = Except.ok i
        ∧ "Default input device not found. Printing all input devices:"
            ∈ (setup_mic env).logs
        ∧ (∃ d, env.devices.get? i = some d ∧ 0 < d.maxInputChannels)
        ∧ (∀ j d2, env.devices.get? j = some d2 → 0 < d2.maxInputChannels → i ≤ j))
    ∧ ((∀ d ∈ env.devices, d.maxInputChannels = 0) →
        (sttInit env ec lang).result = Except.error "No input devices found."
        ∧ (sttInit env ec lang).events = []
        ∧ InitEvent.threadStart ∉ (sttInit env ec lang).events) := by
  constructor
  · intro i hfind
    obtain ⟨h0, hex, hmin⟩ := findInputDevice_first env.devices 0 i hfind
    refine ⟨?_, ?_, ?_, ?_⟩
    · simp [setup_mic, hdef, hfind]
    · simp [setup_mic, hdef, hfind]
    · simpa using hex
    · intro j d2 hj hpos
      have := hmin j d2 hj hpos
      omega
  · intro hall
    have hnone : findInputDevice env.devices 0 = none :=
      (findInputDevice_none_iff env.devices 0).mpr hall
    have hmic : (setup_mic env).result = Except.error "No input devices found." := by
      simp [setup_mic, hdef, hnone]
    rw [sttInit_micError env ec lang "No input devices found." hmic]
    exact ⟨rfl, rfl, by simp⟩

/-- A host with the default input device unavailable and one
input-capable device at index 1. -/
def envFallback : AudioEnv :=
  { defaultInput := none
    devices := [{ name := "spk", maxInputChannels := 0 },
                { name := "mic", maxInputChannels := 2 }] }

/-- A host with the default input device unavailable and no
input-capable device at all. -/
def envNoInput : AudioEnv :=
  { defaultInput := none
    devices := [{ name := "spk", maxInputChannels := 0 }] }

/-- Witness for C8: both branches at concrete hosts. -/
theorem claim_mic_fallback_witness :
    (setup_mic envFallback).result = Except.ok 1
    ∧ (sttInit envNoInput (Except.ok ()) "en").result
        = Except.error "No input devices found." := by
  constructor
  · exact ((claim_mic_fallback envFallback "en" (Except.ok ()) rfl).1 1 (by decide)).1
  · exact ((claim_mic_fallback envNoInput "en" (Except.ok ()) rfl).2 (by decide)).1

/-- C9: transcription-engine construction happens inside `STT.__init__`
strictly before the worker thread is started — on success the milestone
trace is mic setup, then engine construction, then thread start; if
engine construction fails, that failure propagates to the caller as the
construction result and the thread-start milestone is never reached (no
partial startup state with a running thread exists on error). -/
theorem claim_engine_before_thread (env : AudioEnv) (lang : String) (idx : Nat)
    (hmic : (setup_mic env).result = Except.ok idx) :
    (∀ e, (sttInit env (Except.error e) lang).result = Except.error e
        ∧ InitEvent.threadStart ∉ (sttInit env (Except.error e) lang).events)
    ∧ (∀ u, (sttInit env (Except.ok u) lang).events
        = [InitEvent.micSetup, InitEvent.engineInit, InitEvent.threadStart]) := by
  constructor
  · intro e
    rw [sttInit_engineError env lang idx e hmic]
    exact ⟨rfl, by simp⟩
  · intro u
    rw [sttInit_ok env lang idx u hmic]

/-- Witness for C9 at a host whose default device resolves. -/
theorem claim_engine_before_thread_witness :
    (sttInit { defaultInput := some 0, devices := [] } (Except.error "no cuda") "en").result
      = Except.error "no cuda" :=
  ((claim_engine_before_thread { defaultInput := some 0, devices := [] } "en" 0 rfl).1
    "no cuda").1

/-- C10: every item `recorder_callback` enqueues is a `BytesIO` audio
buffer for which the worker's sentinel test (`audio_data == 'STOP'`) is
false, so a genuine audio segment is never mistaken for the shutdown
sentinel and dropped; the test passes for exactly the queued string
`"STOP"`, and a sentinel-branch exit of the worker loop can only be
caused by dequeuing that exact string. -/
theorem claim_sentinel_disjoint :
    (∀ wav : List Nat, isStopSentinel (recorder_callback wav) = false)
    ∧ (∀ it : QItem, isStopSentinel it = true ↔ it = QItem.strItem "STOP")
    ∧ (∀ (f : EngineConfig → QItem → List Entry) (flag : Nat → Bool)
        (i : Nat) (q : List QItem) (st : TState) (r : RunResult),
        transcribe f flag i q st = some r → r.reason = ExitReason.sentinel →
          ∃ pre, r.consumed = pre ++ [QItem.strItem "STOP"]) := by
  refine ⟨fun wav => rfl, ?_, ?_⟩
  · intro it
    cases it with
    | audioBuf wav => simp [isStopSentinel]
    | strItem s =>
      simp only [isStopSentinel, beq_iff_eq, QItem.strItem.injEq]
  · intro f flag i q st r h hr
    obtain ⟨-, -, -, hsent, -⟩ := transcribe_spec f flag q i st r h
    obtain ⟨pre, it, h1, h2, -, -⟩ := hsent hr
    have hit : it = QItem.strItem "STOP" := by
      cases it with
      | audioBuf wav => simp [isStopSentinel] at h2
      | strItem s =>
        simp only [isStopSentinel, beq_iff_eq] at h2
        rw [h2]
    exact ⟨pre, by rw [h1, hit]⟩

/-- Witness for C10 at a concrete run that exits on the sentinel. -/
theorem claim_sentinel_disjoint_witness :
    ∃ pre, cexResult.consumed = pre ++ [QItem.strItem "STOP"] :=
  claim_sentinel_disjoint.2.2 cexEngine (fun _ => true) 0 cexQueue (initTState "en")
    cexResult cexRun_eq rfl
